import Mathlib

/-!
Shallow embedding of the `cloudflare-worker-myip` Cloudflare Worker
(TypeScript) in Lean 4, together with theorems settling the frozen claims
about its natural-language specification.

Embedding conventions:
* JS strings are Lean `String`s (code points stand in for UTF-16 units;
  all header names and the strings appearing in the claims are ASCII).
* `Headers` is modelled as an association list with case-insensitive
  lookup, mirroring the Fetch API `Headers` class (`get` / `set` / `has`).
* `request.headers.get(name)` returning `string | null` is modelled as
  `Option String`; an empty-string value is a *present* header, distinct
  from an absent one — JS truthiness tests (`if (!originHeader)`,
  `s || 'N/A'`) are modelled explicitly via `truthyStr` / `orNA`.
* Response bodies are kept in structured (pre-`JSON.stringify`) form in
  the inductive `Body`; serialisation is injective on the payload shapes
  the worker produces, so nothing observable is lost.
* The single `try { … } catch { … }` in `src/routes/all_json.ts` is
  modelled by a boolean oracle `formatFails` saying whether an unexpected
  exception is raised while formatting the metadata-derived fields.
-/

namespace MyIp

/-- Join a list of strings with a comma and a space, as JS `arr.join(', ')`. -/
def joinComma (l : List String) : String :=
  String.intercalate ", " l

/-- JS `String.prototype.split` with a one-character separator:
`"".split(sep)` is `[""]`, separators at the ends produce empty groups. -/
def splitChar (sep : Char) : List Char → List (List Char)
  | [] => [[]]
  | c :: cs =>
    if c == sep then [] :: splitChar sep cs
    else
      match splitChar sep cs with
      | g :: gs => (c :: g) :: gs
      | [] => [[c]]

/-- JS truthiness on a nullable string: `null` and `''` are falsy.
Normalises a header-lookup result the way `if (value) { … }` tests it. -/
def truthyStr : Option String → Option String
  | none => none
  | some s => if s == "" then none else some s

/-- JS `String.prototype.trim`, structurally: drop whitespace characters
from both ends (the whitespace the worker ever sees is covered by
`Char.isWhitespace`). -/
def trimStr (s : String) : String :=
  String.mk (((s.data.dropWhile Char.isWhitespace).reverse.dropWhile Char.isWhitespace).reverse)

/-- JS `String.prototype.slice(0, n)`, structurally over the character
list. -/
def takeStr (s : String) (n : Nat) : String :=
  String.mk (s.data.take n)

/-- ASCII lowercasing, defined structurally over the character list (the
JS `toLowerCase` calls in this worker only ever see ASCII header names and
method names). -/
def lowerStr (s : String) : String :=
  String.mk (s.data.map Char.toLower)

/-- ASCII uppercasing, structurally (JS `toUpperCase` on method names). -/
def upperStr (s : String) : String :=
  String.mk (s.data.map Char.toUpper)

/-- JS `value || 'N/A'` on a nullable string. -/
def orNA : Option String → String
  | none => "N/A"
  | some s => if s == "" then "N/A" else s

/-- Fetch-API header collection: an association list of name/value pairs
with case-insensitive names (the class normalises names, so `get`, `has`
and `set` all compare names lowercased). -/
structure Headers where
  entries : List (String × String)
  deriving DecidableEq

/-- Case-insensitive header lookup, as `Headers.prototype.get` (returns
`null`, i.e. `none`, when the header is absent). -/
def Headers.get (h : Headers) (name : String) : Option String :=
  (h.entries.find? (fun p => lowerStr p.1 == lowerStr name)).map (fun p => p.2)

/-- Header presence test, as `Headers.prototype.has`. -/
def Headers.has (h : Headers) (name : String) : Bool :=
  (h.get name).isSome

/-- Case-insensitive header replacement, as `Headers.prototype.set`:
every entry with the same (case-insensitive) name is replaced by the
single new pair. -/
def Headers.set (h : Headers) (name value : String) : Headers :=
  ⟨h.entries.filter (fun p => !(lowerStr p.1 == lowerStr name)) ++ [(name, value)]⟩

/-- Build a header collection by `set`-ting each pair in order. -/
def Headers.ofList (l : List (String × String)) : Headers :=
  l.foldl (fun h p => h.set p.1 p.2) ⟨[]⟩

/-- Cloudflare platform metadata (`request.cf`), restricted to the fields
the worker reads.  `asn` is a number in JS; only positive finite values
are used, so an integer field is a faithful carrier for the reads the
code performs. Each string field may be absent (`undefined`) or empty. -/
structure CfInfo where
  asn : Option Int
  asOrganization : Option String
  country : Option String
  region : Option String
  city : Option String
  latitude : Option String
  longitude : Option String
  timezone : Option String
  clientAcceptEncoding : Option String
  deriving DecidableEq

/-- The `IPInfo` payload shape of `src/interfaces/ipinfo.ts`. -/
structure IPInfo where
  ip : String
  asn : String
  as_org : String
  country : String
  region : String
  city : String
  latitude : String
  longitude : String
  timezone : String
  encoding : String
  user_agent : String
  deriving DecidableEq

/-- Structured (pre-serialisation) response bodies produced by the worker. -/
inductive Body where
  | empty
  | text (s : String)
  | jsonError (code message : String)
  | jsonHealth
  | jsonCf (cf : Option CfInfo)
  | jsonHeaders (hs : List (String × String))
  | jsonIpInfo (info : IPInfo)
  deriving DecidableEq

/-- Projection of the `user_agent` field out of a structured body, when
the body is an `IPInfo` payload. -/
def bodyUserAgent : Body → Option String
  | Body.jsonIpInfo info => some info.user_agent
  | _ => none

/-- An incoming request: method, URL pathname, headers and platform
metadata (`request.cf`, absent outside Cloudflare). -/
structure Request where
  method : String
  path : String
  headers : Headers
  cf : Option CfInfo
  deriving DecidableEq

/-- A response value: status, status text, headers and structured body. -/
structure Response where
  status : Nat
  statusText : String
  headers : Headers
  body : Body
  deriving DecidableEq

/-- The `config.host` value of `src/config.ts`: either an allowlist array
of exact origins or a string (`'*'`, `':origin'`, or a single fixed
origin). -/
inductive HostConfig where
  | list (origins : List String)
  | str (s : String)
  deriving DecidableEq

/-- The static configuration shape of `src/config.ts`. -/
structure Config where
  host : HostConfig
  allowCredentials : Bool
  methods : List String
  allowHeaders : List String
  exposeHeaders : List String
  maxAge : Option Nat
  deriving DecidableEq

/-- The concrete configuration value of `src/config.ts`. -/
def config : Config :=
  { host := HostConfig.list ["https://example.com", "https://example.net"]
  , allowCredentials := false
  , methods := ["GET", "HEAD", "POST", "OPTIONS", "PATCH"]
  , allowHeaders := ["Content-Type"]
  , exposeHeaders := []
  , maxAge := some 86400 }

namespace ErrorCodes

/-- Error code string of `src/errors.ts`. -/
def METHOD_NOT_ALLOWED : String := "METHOD_NOT_ALLOWED"

/-- Error code string of `src/errors.ts`. -/
def ENV_PLATFORM_METADATA_MISSING : String := "ENV_PLATFORM_METADATA_MISSING"

/-- Error code string of `src/errors.ts`. -/
def INTERNAL_SERVER_ERROR : String := "INTERNAL_SERVER_ERROR"

/-- Error code string of `src/errors.ts`. -/
def NOT_FOUND : String := "NOT_FOUND"

/-- Error code string of `src/errors.ts`. -/
def CORS_HEADER_NOT_ALLOWED : String := "CORS_HEADER_NOT_ALLOWED"

end ErrorCodes

/-- The immutable JSON headers of `src/utils/responses.ts`. -/
def JSON_HEADERS : List (String × String) :=
  [ ("content-type", "application/json;charset=UTF-8")
  , ("cache-control", "no-store")
  , ("x-content-type-options", "nosniff") ]

/-- `errorResponse(status, code, message)` of `src/utils/responses.ts`:
a JSON `{code, message}` body under the fixed JSON headers. -/
def errorResponse (status : Nat) (code message : String) : Response :=
  { status := status
  , statusText := ""
  , headers := Headers.ofList JSON_HEADERS
  , body := Body.jsonError code message }

/-- `successResponse(data, {status})` of `src/utils/responses.ts`: the raw
payload under the fixed JSON headers (the helper always overrides the
init's headers with `JSON_HEADERS`). -/
def successResponse (body : Body) (status : Nat) : Response :=
  { status := status
  , statusText := ""
  , headers := Headers.ofList JSON_HEADERS
  , body := body }

/-- `noContentResponse(init)` of `src/utils/responses.ts`: a 204 with the
given headers plus `cache-control: no-store` and
`x-content-type-options: nosniff` when not already present. -/
def noContentResponse (hs : List (String × String)) : Response :=
  let headers := Headers.ofList hs
  let headers :=
    if headers.has "cache-control" then headers
    else headers.set "cache-control" "no-store"
  let headers :=
    if headers.has "x-content-type-options" then headers
    else headers.set "x-content-type-options" "nosniff"
  { status := 204, statusText := "", headers := headers, body := Body.empty }

/-- The IPv4 test of `src/utils/ip.ts`: the regular expression
`(?:\d\x7b1,3\x7d\.)\x7b3\x7d\d\x7b1,3\x7d` anchored at both ends, i.e.
exactly four dot-separated groups of one to three decimal digits
(no octet-range enforcement). -/
def ipv4Test (s : String) : Bool :=
  let parts := splitChar '.' s.data
  parts.length == 4
    && parts.all (fun p =>
        decide (1 ≤ p.length) && decide (p.length ≤ 3) && p.all Char.isDigit)

/-- The IPv6 test of `src/utils/ip.ts`: the case-insensitive regular
expression `[0-9a-f:]+` anchored at both ends — a non-empty string of hex
digits and colons. -/
def ipv6Test (s : String) : Bool :=
  !s.data.isEmpty
    && s.data.all (fun c =>
        c.isDigit
          || (decide ('a' ≤ c) && decide (c ≤ 'f'))
          || (decide ('A' ≤ c) && decide (c ≤ 'F'))
          || c == ':')

/-- The cleaning step of `validateAndCleanIP`: trim surrounding
whitespace, then remove every CR and LF character. -/
def cleanedOf (raw : String) : String :=
  String.mk ((trimStr raw).data.filter (fun c => !(c == '\r' || c == '\n')))

/-- `validateAndCleanIP` of `src/utils/ip.ts`: trim, strip CR/LF, then
accept the cleaned string when it is IPv4-shaped or contains a colon and
passes the hex-and-colons IPv6 filter; otherwise return `"Unknown"`. -/
def validateAndCleanIP (raw : String) : String :=
  let cleaned := cleanedOf raw
  let isValid := ipv4Test cleaned || (cleaned.data.contains ':' && ipv6Test cleaned)
  if isValid then cleaned else "Unknown"

/-- `resolveAllowOrigin` of `src/cors.ts`.  `if (!originHeader) return
null` is JS-truthy, hence the `truthyStr` normalisation; the four policy
shapes are: allowlist array, `'*'`, `':origin'`, single fixed origin. -/
def resolveAllowOrigin (cfg : Config) (req : Request) : Option String :=
  match truthyStr (req.headers.get "Origin") with
  | none => none
  | some originHeader =>
    match cfg.host with
    | HostConfig.list origins =>
      if origins.contains originHeader then some originHeader else none
    | HostConfig.str s =>
      if s == "*" then some "*"
      else if s == ":origin" then some originHeader
      else if originHeader == s then some s else none

/-- JS word-character class `\w`, i.e. `[A-Za-z0-9_]`. -/
def isWordChar (c : Char) : Bool :=
  c.isAlphanum || c == '_'

/-- Does the case-insensitive regular expression `\bOrigin\b` match at the
head of `cs`, with `prev` the character just before (`none` at the start
of the string)? Character checks come first so the test reduces without
knowing `prev` whenever the literal fails to match. -/
def matchOriginAt (prev : Option Char) (cs : List Char) : Bool :=
  match cs with
  | c0 :: c1 :: c2 :: c3 :: c4 :: c5 :: rest =>
    c0.toLower == 'o' && c1.toLower == 'r' && c2.toLower == 'i'
      && c3.toLower == 'g' && c4.toLower == 'i' && c5.toLower == 'n'
      && (match prev with
          | none => true
          | some p => !isWordChar p)
      && (match rest with
          | [] => true
          | c :: _ => !isWordChar c)
  | _ => false

/-- Scan for a `\bOrigin\b` match anywhere in the tail, tracking the
previous character. -/
def hasOriginWordAux : Option Char → List Char → Bool
  | _, [] => false
  | prev, c :: rest => matchOriginAt prev (c :: rest) || hasOriginWordAux (some c) rest

/-- The test `/\bOrigin\b/i.test(vary)` of `src/cors.ts`. -/
def hasOriginWord (s : String) : Bool :=
  hasOriginWordAux none s.data

/-- The `Vary` merge step of `applyCors`: `const vary = headers.get('Vary');
if (vary) { … } else { headers.set('Vary', 'Origin') }` — the test is JS
truthiness, so a present-but-*empty* `Vary` value takes the else branch
like an absent one and is overwritten with `Origin`; a truthy value that
does not already match `\bOrigin\b` (case-insensitively) gets `, Origin`
appended; otherwise it is left untouched. -/
def varyMerge (h : Headers) : Headers :=
  match truthyStr (h.get "Vary") with
  | some vary => if hasOriginWord vary then h else h.set "Vary" (vary ++ ", Origin")
  | none => h.set "Vary" "Origin"

/-- The `if (origin) { … }` block of `applyCors`: set the allow-origin
header when absent, the credentials header when enabled and the origin is
not the wildcard, and merge `Vary: Origin` when the origin is not the
wildcard. -/
def corsOriginStage (cfg : Config) (origin : Option String) (h : Headers) : Headers :=
  match truthyStr origin with
  | none => h
  | some o =>
    let h1 := if h.has "Access-Control-Allow-Origin" then h
              else h.set "Access-Control-Allow-Origin" o
    let h2 := if cfg.allowCredentials && !(o == "*") then
                h1.set "Access-Control-Allow-Credentials" "true"
              else h1
    if !(o == "*") then varyMerge h2 else h2

/-- The tail of `applyCors`: informational allow-methods / allow-headers
(set only when absent) and the expose-headers list (set unconditionally
when configured non-empty). -/
def corsInfoStage (cfg : Config) (h : Headers) : Headers :=
  let h1 := if h.has "Access-Control-Allow-Methods" then h
            else h.set "Access-Control-Allow-Methods" (joinComma cfg.methods)
  let h2 := if h1.has "Access-Control-Allow-Headers" then h1
            else h1.set "Access-Control-Allow-Headers" (joinComma cfg.allowHeaders)
  if !cfg.exposeHeaders.isEmpty then
    h2.set "Access-Control-Expose-Headers" (joinComma cfg.exposeHeaders)
  else h2

/-- `applyCors` of `src/cors.ts`: works on a copy of the response's
headers, preserves status / status text / body. -/
def applyCors (cfg : Config) (req : Request) (resp : Response) : Response :=
  { status := resp.status
  , statusText := resp.statusText
  , headers := corsInfoStage cfg (corsOriginStage cfg (resolveAllowOrigin cfg req) resp.headers)
  , body := resp.body }

/-- The requested-header list derived from an
`Access-Control-Request-Headers` value: split on commas, trim each entry,
drop empties (`split(',').map(trim).filter(Boolean)`). -/
def requestedHeadersOf (rh : String) : List String :=
  ((splitChar ',' rh.data).map (fun g => trimStr (String.mk g))).filter (fun s => !(s == ""))

/-- Does a preflight request pass the requested-method gate of
`buildPreflightResponse`? It does when the
`Access-Control-Request-Method` header is absent or empty (JS falsy) or
its upper-cased value is in the method allowlist. -/
def preflightMethodOk (cfg : Config) (req : Request) : Bool :=
  match truthyStr (req.headers.get "Access-Control-Request-Method") with
  | some m => cfg.methods.contains (upperStr m)
  | none => true

/-- Steps 5 to 8 of `buildPreflightResponse`: max-age, credentials,
expose-headers, `Vary: Origin`, then the 204 with no body. -/
def preflightFinish (cfg : Config) (origin : Option String) (h3 : Headers) : Response :=
  let h4 := h3.set "Access-Control-Max-Age" (toString (cfg.maxAge.getD 86400))
  let h5 :=
    match origin with
    | some o =>
      if cfg.allowCredentials && !(o == "*") then
        h4.set "Access-Control-Allow-Credentials" "true"
      else h4
    | none => h4
  let h6 :=
    if !cfg.exposeHeaders.isEmpty then
      h5.set "Access-Control-Expose-Headers" (joinComma cfg.exposeHeaders)
    else h5
  let h7 :=
    match origin with
    | some o => if !(o == "*") then h6.set "Vary" "Origin" else h6
    | none => h6
  { status := 204, statusText := "", headers := h7, body := Body.empty }

/-- Steps 3 and 4 of `buildPreflightResponse` (after the requested-method
gate): set allow-methods to the full allowlist; when the requested-headers
header is truthy, split it on commas, trim, drop empties, reject the first
entry not case-insensitively in the header allowlist with a plain 400 JSON
error, else echo the requested list; when not truthy, advertise the full
header allowlist. -/
def preflightRest (cfg : Config) (origin : Option String) (req : Request) (h1 : Headers) : Response :=
  let h2 := h1.set "Access-Control-Allow-Methods" (joinComma cfg.methods)
  let allowedLower := cfg.allowHeaders.map lowerStr
  match truthyStr (req.headers.get "Access-Control-Request-Headers") with
  | some rh =>
    let requested := requestedHeadersOf rh
    match requested.find? (fun hn => !(allowedLower.contains (lowerStr hn))) with
    | some bad =>
      errorResponse 400 ErrorCodes.CORS_HEADER_NOT_ALLOWED ("CORS header not allowed: " ++ bad)
    | none =>
      preflightFinish cfg origin (h2.set "Access-Control-Allow-Headers" (joinComma requested))
  | none =>
    preflightFinish cfg origin (h2.set "Access-Control-Allow-Headers" (joinComma cfg.allowHeaders))

/-- `buildPreflightResponse` of `src/cors.ts`: resolve the origin, set the
allow-origin header when truthy, reject a truthy requested method that is
not in the (upper-cased) method allowlist with a plain 405 JSON error,
otherwise continue with `preflightRest`. -/
def buildPreflightResponse (cfg : Config) (req : Request) : Response :=
  let origin := truthyStr (resolveAllowOrigin cfg req)
  let h0 : Headers := ⟨[]⟩
  let h1 :=
    match origin with
    | some o => h0.set "Access-Control-Allow-Origin" o
    | none => h0
  match truthyStr (req.headers.get "Access-Control-Request-Method") with
  | some m =>
    if !(cfg.methods.contains (upperStr m)) then
      errorResponse 405 ErrorCodes.METHOD_NOT_ALLOWED ("Method " ++ m ++ " not allowed")
    else preflightRest cfg origin req h1
  | none => preflightRest cfg origin req h1

/-- The home route of `src/routes/home.ts`: the sanitised
`CF-Connecting-IP` value as plain text under the fixed text headers.
(The defensive `if (!request)` guard is unrepresentable here: a `Request`
value always exists.) -/
def getHome (req : Request) : Response :=
  let raw := (req.headers.get "CF-Connecting-IP").getD ""
  let value := validateAndCleanIP raw
  { status := 200
  , statusText := ""
  , headers := Headers.ofList
      [ ("content-type", "text/plain; charset=utf-8")
      , ("cache-control", "no-store")
      , ("x-content-type-options", "nosniff") ]
  , body := Body.text value }

/-- `MAX_UA_LEN` of `src/routes/all_json.ts`. -/
def MAX_UA_LEN : Nat := 512

/-- The `/all.json` route of `src/routes/all_json.ts`.  `formatFails`
models the `try … catch`: it says whether an unexpected exception is
raised while formatting the metadata-derived fields (the only region
whose property accesses could throw); the catch turns it into a 500
`INTERNAL_SERVER_ERROR` JSON error.  The source's
`isValidIP ? cleanedIP : 'Unknown'` collapses to `cleanedIP` because
`isValidIP` is defined as `cleanedIP !== 'Unknown'`. -/
def getAllJson (formatFails : Bool) (req : Request) : Response :=
  if !(req.method == "GET") && !(req.method == "HEAD") then
    errorResponse 405 ErrorCodes.METHOD_NOT_ALLOWED "Method not allowed"
  else
    match req.cf with
    | none =>
      errorResponse 500 ErrorCodes.ENV_PLATFORM_METADATA_MISSING "Platform metadata unavailable"
    | some cf =>
      if req.method == "HEAD" then
        { status := 200, statusText := "", headers := Headers.ofList JSON_HEADERS
        , body := Body.empty }
      else if formatFails then
        errorResponse 500 ErrorCodes.INTERNAL_SERVER_ERROR "Internal Server Error"
      else
        let rawIP := (req.headers.get "CF-Connecting-IP").getD ""
        let ip := validateAndCleanIP rawIP
        let ua0 := orNA (req.headers.get "User-Agent")
        let userAgent := if ua0.length > MAX_UA_LEN then takeStr ua0 MAX_UA_LEN ++ "…" else ua0
        let asn :=
          match cf.asn with
          | some n => if 0 < n then "AS" ++ toString n else "N/A"
          | none => "N/A"
        let info : IPInfo :=
          { ip := ip
          , asn := asn
          , as_org := orNA cf.asOrganization
          , country := orNA cf.country
          , region := orNA cf.region
          , city := orNA cf.city
          , latitude := orNA cf.latitude
          , longitude := orNA cf.longitude
          , timezone := orNA cf.timezone
          , encoding := orNA cf.clientAcceptEncoding
          , user_agent := userAgent }
        { status := 200, statusText := "", headers := Headers.ofList JSON_HEADERS
        , body := Body.jsonIpInfo info }

/-- `handleRequest` of `src/handler.ts`: method gate, then an exact-path
switch over `listApi` (`/health`, `/`, `/all.json`, `/cf.json`,
`/headers`), defaulting to a 404 JSON error. -/
def handleRequest (cfg : Config) (formatFails : Bool) (req : Request) : Response :=
  if !(cfg.methods.contains req.method) then
    errorResponse 405 ErrorCodes.METHOD_NOT_ALLOWED "Method not allowed"
  else if req.path == "/health" then successResponse Body.jsonHealth 200
  else if req.path == "/" then getHome req
  else if req.path == "/all.json" then getAllJson formatFails req
  else if req.path == "/cf.json" then successResponse (Body.jsonCf req.cf) 200
  else if req.path == "/headers" then successResponse (Body.jsonHeaders req.headers.entries) 200
  else errorResponse 404 ErrorCodes.NOT_FOUND "Request path not defined"

/-- `handleOptions` of `src/handler.ts`: a full preflight when `Origin`,
`Access-Control-Request-Method` and `Access-Control-Request-Headers` are
all present (strict `!== null` checks — empty values count as present);
otherwise a bare 204 carrying an `Allow` header. -/
def handleOptions (cfg : Config) (req : Request) : Response :=
  if (req.headers.get "Origin").isSome
      && (req.headers.get "Access-Control-Request-Method").isSome
      && (req.headers.get "Access-Control-Request-Headers").isSome then
    buildPreflightResponse cfg req
  else
    noContentResponse [("Allow", joinComma cfg.methods)]

/-- The `fetch` entry point of `src/worker.ts`: global method gate (a
bodyless 405 that is still CORS-wrapped), OPTIONS short-circuit to
`handleOptions` (no additional CORS wrap), and CORS wrapping of every
other dispatched response. -/
def fetch (cfg : Config) (formatFails : Bool) (req : Request) : Response :=
  if !(cfg.methods.contains req.method) then
    applyCors cfg req
      { status := 405, statusText := "Method Not Allowed", headers := ⟨[]⟩, body := Body.empty }
  else if req.method == "OPTIONS" then
    handleOptions cfg req
  else
    applyCors cfg req (handleRequest cfg formatFails req)

/-! ### Header-collection lemmas -/

theorem find?_cons_pos {α : Type} (p : α → Bool) (a : α) (l : List α)
    (h : p a = true) : List.find? p (a :: l) = some a := by
  simp [List.find?_cons, h]

theorem find?_cons_neg {α : Type} (p : α → Bool) (a : α) (l : List α)
    (h : p a = false) : List.find? p (a :: l) = List.find? p l := by
  simp [List.find?_cons, h]

theorem find?_filter_set (es : List (String × String)) (n v m : String) :
    ((es.filter (fun p => !(lowerStr p.1 == lowerStr n)) ++ [(n, v)]).find?
        (fun p => lowerStr p.1 == lowerStr m)) =
      if lowerStr m = lowerStr n then some (n, v)
      else es.find? (fun p => lowerStr p.1 == lowerStr m) := by
  induction es with
  | nil =>
    by_cases hc : lowerStr m = lowerStr n
    · have hb : ((fun p : String × String => lowerStr p.1 == lowerStr m) (n, v)) = true := by
        simp [hc]
      simp only [List.filter_nil, List.nil_append, if_pos hc]
      exact find?_cons_pos (fun p : String × String => lowerStr p.1 == lowerStr m) (n, v) [] hb
    · have hb : ((fun p : String × String => lowerStr p.1 == lowerStr m) (n, v)) = false := by
        simp only [beq_eq_false_iff_ne]
        exact fun h => hc h.symm
      simp only [List.filter_nil, List.nil_append, if_neg hc]
      rw [find?_cons_neg (fun p : String × String => lowerStr p.1 == lowerStr m) (n, v) [] hb]
  | cons p es ih =>
    by_cases hp : lowerStr p.1 = lowerStr n
    · have hf : ¬((!(lowerStr p.1 == lowerStr n)) = true) := by simp [hp]
      rw [List.filter_cons, if_neg hf]
      by_cases hc : lowerStr m = lowerStr n
      · rw [ih, if_pos hc, if_pos hc]
      · have hpm : ((fun q : String × String => lowerStr q.1 == lowerStr m) p) = false := by
          simp only [beq_eq_false_iff_ne]
          exact fun h => hc (h.symm.trans hp)
        rw [ih, if_neg hc, if_neg hc,
          find?_cons_neg (fun q : String × String => lowerStr q.1 == lowerStr m) p es hpm]
    · have hf : (!(lowerStr p.1 == lowerStr n)) = true := by simp [hp]
      rw [List.filter_cons, if_pos hf, List.cons_append]
      by_cases hpm : lowerStr p.1 = lowerStr m
      · have hb : ((fun q : String × String => lowerStr q.1 == lowerStr m) p) = true := by
          simp [hpm]
        have hc : ¬(lowerStr m = lowerStr n) := fun h => hp (hpm.trans h)
        rw [find?_cons_pos (fun q : String × String => lowerStr q.1 == lowerStr m) p
            (List.filter (fun q : String × String => !(lowerStr q.1 == lowerStr n)) es ++ [(n, v)]) hb,
          if_neg hc,
          find?_cons_pos (fun q : String × String => lowerStr q.1 == lowerStr m) p es hb]
      · have hb : ((fun q : String × String => lowerStr q.1 == lowerStr m) p) = false := by
          simp only [beq_eq_false_iff_ne]
          exact hpm
        rw [find?_cons_neg (fun q : String × String => lowerStr q.1 == lowerStr m) p
            (List.filter (fun q : String × String => !(lowerStr q.1 == lowerStr n)) es ++ [(n, v)]) hb,
          ih]
        by_cases hc : lowerStr m = lowerStr n
        · rw [if_pos hc, if_pos hc]
        · rw [if_neg hc, if_neg hc,
            find?_cons_neg (fun q : String × String => lowerStr q.1 == lowerStr m) p es hb]

theorem Headers.get_set (h : Headers) (n v m : String) :
    (h.set n v).get m = if lowerStr m = lowerStr n then some v else h.get m := by
  obtain ⟨es⟩ := h
  simp only [Headers.set, Headers.get, find?_filter_set]
  by_cases hc : lowerStr m = lowerStr n <;> simp [hc]

theorem Headers.get_set_self (h : Headers) (n v : String) :
    (h.set n v).get n = some v := by
  simp [Headers.get_set]

theorem Headers.get_set_ne (h : Headers) {n m : String} (v : String)
    (hne : lowerStr m ≠ lowerStr n) : (h.set n v).get m = h.get m := by
  simp [Headers.get_set, hne]

theorem Headers.get_set_of_get (h : Headers) {n v : String} (m : String)
    (hg : h.get n = some v) : (h.set n v).get m = h.get m := by
  rw [Headers.get_set]
  split
  · next hc =>
    rw [show h.get m = h.get n from by simp [Headers.get, hc], hg]
  · rfl

/-! ### Word-boundary lemmas for the `Vary` merge -/

theorem matchOriginAt_head_ne (p : Option Char) (c : Char) (cs : List Char)
    (hc : (c.toLower == 'o') = false) : matchOriginAt p (c :: cs) = false := by
  unfold matchOriginAt
  rcases cs with _ | ⟨c1, _ | ⟨c2, _ | ⟨c3, _ | ⟨c4, _ | ⟨c5, rest⟩⟩⟩⟩⟩ <;>
    first
    | rfl
    | simp [hc]

theorem hasOriginWordAux_append_origin (cs : List Char) (p : Option Char) :
    hasOriginWordAux p (cs ++ [',', ' ', 'O', 'r', 'i', 'g', 'i', 'n']) = true := by
  induction cs generalizing p with
  | nil =>
    rw [List.nil_append]
    rw [show hasOriginWordAux p [',', ' ', 'O', 'r', 'i', 'g', 'i', 'n']
        = (matchOriginAt p [',', ' ', 'O', 'r', 'i', 'g', 'i', 'n']
            || hasOriginWordAux (some ',') [' ', 'O', 'r', 'i', 'g', 'i', 'n']) from rfl]
    rw [matchOriginAt_head_ne p ',' _ (by decide)]
    decide
  | cons c tl ih =>
    rw [List.cons_append]
    rw [show hasOriginWordAux p (c :: (tl ++ [',', ' ', 'O', 'r', 'i', 'g', 'i', 'n']))
        = (matchOriginAt p (c :: (tl ++ [',', ' ', 'O', 'r', 'i', 'g', 'i', 'n']))
            || hasOriginWordAux (some c) (tl ++ [',', ' ', 'O', 'r', 'i', 'g', 'i', 'n'])) from rfl]
    rw [ih (some c)]
    simp

theorem hasOriginWord_append (v : String) : hasOriginWord (v ++ ", Origin") = true := by
  unfold hasOriginWord
  rw [show (v ++ ", Origin").data = v.data ++ [',', ' ', 'O', 'r', 'i', 'g', 'i', 'n'] from by
    rw [String.data_append]]
  exact hasOriginWordAux_append_origin v.data none

theorem hasOriginWord_ne_empty (v : String) (hw : hasOriginWord v = true) : v ≠ "" := by
  intro h
  rw [h] at hw
  exact absurd hw (by decide)

theorem truthyStr_eq_some (x : Option String) (v : String) (h : truthyStr x = some v) :
    x = some v ∧ v ≠ "" := by
  cases x with
  | none => exact absurd h (by simp [truthyStr])
  | some s =>
    simp only [truthyStr] at h
    split at h
    · exact absurd h (by simp)
    · next hs =>
      cases h
      exact ⟨rfl, by simpa using hs⟩

theorem truthyStr_of_ne (s : String) (hne : s ≠ "") : truthyStr (some s) = some s := by
  simp only [truthyStr]
  rw [if_neg (by simpa using hne)]

theorem varyMerge_get_vary (h : Headers) :
    (varyMerge h).get "Vary"
      = some (match truthyStr (h.get "Vary") with
              | none => "Origin"
              | some v => if hasOriginWord v then v else v ++ ", Origin") := by
  unfold varyMerge
  cases hv : truthyStr (h.get "Vary") with
  | none => simp [Headers.get_set_self]
  | some v =>
    obtain ⟨hget, hne⟩ := truthyStr_eq_some _ _ hv
    by_cases hw : hasOriginWord v <;> simp [hw, hget, Headers.get_set_self]

theorem varyMerge_hasWord (h : Headers) :
    ∃ v, (varyMerge h).get "Vary" = some v ∧ hasOriginWord v = true := by
  rw [varyMerge_get_vary]
  cases hv : truthyStr (h.get "Vary") with
  | none => exact ⟨"Origin", rfl, by decide⟩
  | some v =>
    by_cases hw : hasOriginWord v
    · exact ⟨v, by simp [hw], hw⟩
    · exact ⟨v ++ ", Origin", by simp [hw], hasOriginWord_append v⟩

theorem varyMerge_get_ne (h : Headers) (name : String)
    (hn : lowerStr name ≠ lowerStr "Vary") :
    (varyMerge h).get name = h.get name := by
  unfold varyMerge
  cases truthyStr (h.get "Vary") with
  | none => exact Headers.get_set_ne h _ hn
  | some v =>
    by_cases hw : hasOriginWord v <;> simp [hw, Headers.get_set_ne h _ hn]

theorem varyMerge_of_word (h : Headers) (v : String)
    (hv : h.get "Vary" = some v) (hw : hasOriginWord v = true) :
    varyMerge h = h := by
  unfold varyMerge
  rw [hv, truthyStr_of_ne v (hasOriginWord_ne_empty v hw)]
  simp [hw]

/-! ### Stage lemmas for `applyCors` -/

theorem corsOriginStage_of_none (cfg : Config) (origin : Option String) (h : Headers)
    (ht : truthyStr origin = none) : corsOriginStage cfg origin h = h := by
  unfold corsOriginStage
  rw [ht]

theorem corsOriginStage_get_ne (cfg : Config) (origin : Option String) (h : Headers)
    (name : String)
    (h1 : lowerStr name ≠ lowerStr "Access-Control-Allow-Origin")
    (h2 : lowerStr name ≠ lowerStr "Access-Control-Allow-Credentials")
    (h3 : lowerStr name ≠ lowerStr "Vary") :
    (corsOriginStage cfg origin h).get name = h.get name := by
  unfold corsOriginStage
  cases ht : truthyStr origin with
  | none => rfl
  | some o =>
    simp only []
    split_ifs <;>
      simp [varyMerge_get_ne, Headers.get_set, h1, h2, h3]

theorem corsOriginStage_has_acao (cfg : Config) (origin : Option String) (h : Headers)
    (o : String) (ht : truthyStr origin = some o) :
    (corsOriginStage cfg origin h).has "Access-Control-Allow-Origin" = true := by
  unfold corsOriginStage
  rw [ht]
  simp only [Headers.has]
  by_cases hhas : h.has "Access-Control-Allow-Origin"
  · split_ifs <;>
      simp_all [Headers.has, varyMerge_get_ne, Headers.get_set,
        show lowerStr "Access-Control-Allow-Origin"
            ≠ lowerStr "Access-Control-Allow-Credentials" from by decide,
        show lowerStr "Access-Control-Allow-Origin"
            ≠ lowerStr "Vary" from by decide]
  · split_ifs <;>
      simp_all [Headers.has, varyMerge_get_ne, Headers.get_set,
        show lowerStr "Access-Control-Allow-Origin"
            ≠ lowerStr "Access-Control-Allow-Credentials" from by decide,
        show lowerStr "Access-Control-Allow-Origin"
            ≠ lowerStr "Vary" from by decide]

theorem corsOriginStage_get_cred (cfg : Config) (origin : Option String) (h : Headers)
    (o : String) (ht : truthyStr origin = some o)
    (hcd : (cfg.allowCredentials && !(o == "*")) = true) :
    (corsOriginStage cfg origin h).get "Access-Control-Allow-Credentials" = some "true" := by
  unfold corsOriginStage
  rw [ht]
  have hw : (!(o == "*")) = true := by
    revert hcd
    cases cfg.allowCredentials <;> cases ho : (o == "*") <;> simp
  simp only []
  rw [if_pos hcd, if_pos hw]
  rw [varyMerge_get_ne _ _ (by decide)]
  exact Headers.get_set_self _ _ _

theorem corsOriginStage_vary_word (cfg : Config) (origin : Option String) (h : Headers)
    (o : String) (ht : truthyStr origin = some o) (hw : (!(o == "*")) = true) :
    ∃ v, (corsOriginStage cfg origin h).get "Vary" = some v ∧ hasOriginWord v = true := by
  unfold corsOriginStage
  rw [ht]
  simp only []
  rw [if_pos hw]
  exact varyMerge_hasWord _

theorem corsOriginStage_second (cfg : Config) (origin : Option String) (h : Headers)
    (hacao : ∀ o, truthyStr origin = some o → h.has "Access-Control-Allow-Origin" = true)
    (hcred : ∀ o, truthyStr origin = some o →
        (cfg.allowCredentials && !(o == "*")) = true →
        h.get "Access-Control-Allow-Credentials" = some "true")
    (hvary : ∀ o, truthyStr origin = some o → (!(o == "*")) = true →
        ∃ v, h.get "Vary" = some v ∧ hasOriginWord v = true) :
    ∀ m, (corsOriginStage cfg origin h).get m = h.get m := by
  intro m
  unfold corsOriginStage
  cases ht : truthyStr origin with
  | none => rfl
  | some o =>
    simp only []
    have h1 := hacao o ht
    rw [if_pos h1]
    by_cases hcd : (cfg.allowCredentials && !(o == "*")) = true
    · rw [if_pos hcd]
      have hset : ∀ m', (h.set "Access-Control-Allow-Credentials" "true").get m' = h.get m' :=
        fun m' => Headers.get_set_of_get h m' (hcred o ht hcd)
      by_cases hw : (!(o == "*")) = true
      · rw [if_pos hw]
        obtain ⟨v, hv, hword⟩ := hvary o ht hw
        rw [varyMerge_of_word _ v ((hset "Vary").trans hv) hword]
        exact hset m
      · rw [if_neg hw]
        exact hset m
    · rw [if_neg hcd]
      by_cases hw : (!(o == "*")) = true
      · rw [if_pos hw]
        obtain ⟨v, hv, hword⟩ := hvary o ht hw
        rw [varyMerge_of_word _ v hv hword]
      · rw [if_neg hw]

theorem corsInfoStage_get_ne (cfg : Config) (h : Headers) (name : String)
    (h1 : lowerStr name ≠ lowerStr "Access-Control-Allow-Methods")
    (h2 : lowerStr name ≠ lowerStr "Access-Control-Allow-Headers")
    (h3 : lowerStr name ≠ lowerStr "Access-Control-Expose-Headers") :
    (corsInfoStage cfg h).get name = h.get name := by
  unfold corsInfoStage
  simp only []
  have base : ∀ hh : Headers, hh.get name = h.get name →
      (if (!cfg.exposeHeaders.isEmpty) = true then
          hh.set "Access-Control-Expose-Headers" (joinComma cfg.exposeHeaders)
        else hh).get name = h.get name := by
    intro hh hhe
    split_ifs
    · rw [Headers.get_set_ne hh _ h3, hhe]
    · exact hhe
  have mid : ∀ hh : Headers, hh.get name = h.get name →
      (if hh.has "Access-Control-Allow-Headers" = true then hh
        else hh.set "Access-Control-Allow-Headers" (joinComma cfg.allowHeaders)).get name
        = h.get name := by
    intro hh hhe
    split_ifs
    · exact hhe
    · rw [Headers.get_set_ne hh _ h2, hhe]
  apply base
  apply mid
  split_ifs
  · rfl
  · exact Headers.get_set_ne h _ h1

theorem corsInfoStage_has_acam (cfg : Config) (h : Headers) :
    (corsInfoStage cfg h).has "Access-Control-Allow-Methods" = true := by
  unfold corsInfoStage
  simp only []
  have hexp : ∀ hh : Headers, (hh.get "Access-Control-Allow-Methods").isSome = true →
      (if (!cfg.exposeHeaders.isEmpty) = true then
          hh.set "Access-Control-Expose-Headers" (joinComma cfg.exposeHeaders)
        else hh).has "Access-Control-Allow-Methods" = true := by
    intro hh hhe
    split_ifs
    · rw [Headers.has,
        Headers.get_set_ne hh _
          (show lowerStr "Access-Control-Allow-Methods"
              ≠ lowerStr "Access-Control-Expose-Headers" from by decide)]
      exact hhe
    · exact hhe
  have hmid : ∀ hh : Headers, (hh.get "Access-Control-Allow-Methods").isSome = true →
      ((if hh.has "Access-Control-Allow-Headers" = true then hh
        else hh.set "Access-Control-Allow-Headers"
          (joinComma cfg.allowHeaders)).get "Access-Control-Allow-Methods").isSome = true := by
    intro hh hhe
    split_ifs
    · exact hhe
    · rw [Headers.get_set_ne hh _
        (show lowerStr "Access-Control-Allow-Methods"
            ≠ lowerStr "Access-Control-Allow-Headers" from by decide)]
      exact hhe
  have hbase : ((if h.has "Access-Control-Allow-Methods" = true then h
      else h.set "Access-Control-Allow-Methods" (joinComma cfg.methods)).get
        "Access-Control-Allow-Methods").isSome = true := by
    split_ifs with hc
    · exact hc
    · rw [Headers.get_set_self]
      rfl
  apply hexp
  apply hmid
  exact hbase

theorem corsInfoStage_has_acah (cfg : Config) (h : Headers) :
    (corsInfoStage cfg h).has "Access-Control-Allow-Headers" = true := by
  unfold corsInfoStage
  simp only []
  have hexp : ∀ hh : Headers, (hh.get "Access-Control-Allow-Headers").isSome = true →
      (if (!cfg.exposeHeaders.isEmpty) = true then
          hh.set "Access-Control-Expose-Headers" (joinComma cfg.exposeHeaders)
        else hh).has "Access-Control-Allow-Headers" = true := by
    intro hh hhe
    split_ifs
    · rw [Headers.has,
        Headers.get_set_ne hh _
          (show lowerStr "Access-Control-Allow-Headers"
              ≠ lowerStr "Access-Control-Expose-Headers" from by decide)]
      exact hhe
    · exact hhe
  have hstep : ∀ hh1 : Headers,
      ((if hh1.has "Access-Control-Allow-Headers" = true then hh1
        else hh1.set "Access-Control-Allow-Headers"
          (joinComma cfg.allowHeaders)).get "Access-Control-Allow-Headers").isSome = true := by
    intro hh1
    split_ifs with hc
    · exact hc
    · rw [Headers.get_set_self]
      rfl
  apply hexp
  exact hstep _


theorem corsInfoStage_get_aceh (cfg : Config) (h : Headers)
    (hne : cfg.exposeHeaders ≠ []) :
    (corsInfoStage cfg h).get "Access-Control-Expose-Headers"
      = some (joinComma cfg.exposeHeaders) := by
  unfold corsInfoStage
  have hie : (!cfg.exposeHeaders.isEmpty) = true := by
    cases hel : cfg.exposeHeaders with
    | nil => exact absurd hel hne
    | cons a t => simp [hel, List.isEmpty]
  simp only []
  rw [if_pos hie]
  exact Headers.get_set_self _ _ _

theorem corsInfoStage_second (cfg : Config) (h : Headers)
    (hm : h.has "Access-Control-Allow-Methods" = true)
    (hh : h.has "Access-Control-Allow-Headers" = true)
    (he : cfg.exposeHeaders ≠ [] →
        h.get "Access-Control-Expose-Headers" = some (joinComma cfg.exposeHeaders)) :
    ∀ m, (corsInfoStage cfg h).get m = h.get m := by
  intro m
  unfold corsInfoStage
  simp only []
  rw [if_pos hm, if_pos hh]
  cases hel : cfg.exposeHeaders with
  | nil =>
    have hni : ¬((!(([] : List String).isEmpty)) = true) := by decide
    rw [if_neg hni]
  | cons a t =>
    have hyes : (!((a :: t).isEmpty)) = true := by simp [List.isEmpty]
    have hg : h.get "Access-Control-Expose-Headers" = some (joinComma (a :: t)) := by
      rw [← hel]
      exact he (by rw [hel]; simp)
    rw [if_pos hyes]
    exact Headers.get_set_of_get h m hg

theorem corsOriginStage_get_vary (cfg : Config) (origin : Option String) (h : Headers)
    (o : String) (ht : truthyStr origin = some o) (hw : (!(o == "*")) = true) :
    (corsOriginStage cfg origin h).get "Vary"
      = some (match truthyStr (h.get "Vary") with
              | none => "Origin"
              | some v => if hasOriginWord v then v else v ++ ", Origin") := by
  unfold corsOriginStage
  rw [ht]
  simp only []
  rw [if_pos hw]
  have hpre : ∀ hh : Headers, hh.get "Vary" = h.get "Vary" →
      (varyMerge hh).get "Vary" = some (match truthyStr (h.get "Vary") with
        | none => "Origin"
        | some v => if hasOriginWord v then v else v ++ ", Origin") := by
    intro hh hhe
    rw [varyMerge_get_vary hh, hhe]
  have hpair : ∀ hh : Headers, hh.get "Vary" = h.get "Vary" →
      (if (cfg.allowCredentials && !(o == "*")) = true then
          hh.set "Access-Control-Allow-Credentials" "true"
        else hh).get "Vary" = h.get "Vary" := by
    intro hh hhe
    split_ifs
    · rw [Headers.get_set_ne hh _ (by decide)]
      exact hhe
    · exact hhe
  apply hpre
  apply hpair
  split_ifs
  · rfl
  · exact Headers.get_set_ne h _ (by decide)

theorem corsOriginStage_get_vary_wild (cfg : Config) (origin : Option String) (h : Headers)
    (ht : truthyStr origin = some "*") :
    (corsOriginStage cfg origin h).get "Vary" = h.get "Vary" := by
  unfold corsOriginStage
  rw [ht]
  simp only []
  have hno : ¬((!(("*" : String) == "*")) = true) := by decide
  rw [if_neg hno]
  have hcd : ¬((cfg.allowCredentials && !(("*" : String) == "*")) = true) := by
    cases cfg.allowCredentials <;> decide
  rw [if_neg hcd]
  split_ifs
  · rfl
  · exact Headers.get_set_ne h _ (by decide)

/-! ### Claim C1 -/

/-- Reflection-mode configuration used to exhibit the empty-`Origin`
behaviour of `resolveAllowOrigin`. -/
def cfgReflect : Config :=
  { config with host := HostConfig.str ":origin" }

/-- A request carrying a present but empty `Origin` header. -/
def reqEmptyOrigin : Request :=
  ⟨"GET", "/", Headers.ofList [("Origin", "")], none⟩

/-- A request carrying `Origin: https://a.example`. -/
def reqOriginA : Request :=
  ⟨"GET", "/", Headers.ofList [("Origin", "https://a.example")], none⟩

/-- Claim C1 (counterexample): with the `Reflect` policy and a present but
*empty* `Origin` header, `resolveAllowOrigin` returns `none`, not the
reflected (empty) header value the claim requires — the code's
`if (!originHeader)` truthiness test treats an empty `Origin` header like
an absent one. -/
theorem claim1_counterexample :
    reqEmptyOrigin.headers.get "Origin" = some ""
      ∧ resolveAllowOrigin cfgReflect reqEmptyOrigin = none := by
  decide

/-- Claim C1 (amended): `resolveAllowOrigin` returns `none` when the
`Origin` header is absent *or empty*; for a present non-empty `Origin`,
policy `Any` yields the wildcard, `Reflect` yields the incoming value,
`Allowlist` yields the value exactly when it is a member, and `Fixed`
yields the configured origin exactly on exact string equality. -/
theorem claim1_resolveAllowOrigin (cfg : Config) (req : Request) :
    (req.headers.get "Origin" = none → resolveAllowOrigin cfg req = none)
    ∧ (req.headers.get "Origin" = some "" → resolveAllowOrigin cfg req = none)
    ∧ (∀ o, req.headers.get "Origin" = some o → o ≠ "" →
        (cfg.host = HostConfig.str "*" → resolveAllowOrigin cfg req = some "*")
        ∧ (cfg.host = HostConfig.str ":origin" → resolveAllowOrigin cfg req = some o)
        ∧ (∀ l, cfg.host = HostConfig.list l →
            resolveAllowOrigin cfg req = if l.contains o then some o else none)
        ∧ (∀ f, cfg.host = HostConfig.str f → f ≠ "*" → f ≠ ":origin" →
            resolveAllowOrigin cfg req = if o = f then some f else none)) := by
  refine ⟨?_, ?_, ?_⟩
  · intro h0
    unfold resolveAllowOrigin
    rw [h0]
    rfl
  · intro h0
    unfold resolveAllowOrigin
    rw [h0]
    simp [truthyStr]
  · intro o h0 hne
    have ht : truthyStr (req.headers.get "Origin") = some o := by
      rw [h0]
      simp [truthyStr, hne]
    refine ⟨?_, ?_, ?_, ?_⟩
    · intro hh
      unfold resolveAllowOrigin
      rw [ht, hh]
      simp
    · intro hh
      unfold resolveAllowOrigin
      rw [ht, hh]
      simp
    · intro l hh
      unfold resolveAllowOrigin
      rw [ht, hh]
    · intro f hh hf1 hf2
      unfold resolveAllowOrigin
      rw [ht, hh]
      have b1 : (f == "*") = false := by
        rw [beq_eq_false_iff_ne]
        exact hf1
      have b2 : (f == ":origin") = false := by
        rw [beq_eq_false_iff_ne]
        exact hf2
      simp [b1, b2, beq_iff_eq]

/-- Claim C1 witness: the amended theorem applied to the `Reflect` policy
and a concrete non-empty `Origin`. -/
theorem claim1_witness :
    resolveAllowOrigin cfgReflect reqOriginA = some "https://a.example" :=
  (((claim1_resolveAllowOrigin cfgReflect reqOriginA).2.2 "https://a.example"
      (by decide) (by decide)).2.1) rfl

/-! ### Claims C5 and C6 -/

/-- A request whose `Origin` is the first entry of the configured
allowlist. -/
def reqAllowedOrigin : Request :=
  ⟨"GET", "/", Headers.ofList [("Origin", "https://example.com")], none⟩

/-- A response that already carries `Vary: Accept-Encoding`. -/
def respAcceptEncoding : Response :=
  ⟨200, "", Headers.ofList [("Vary", "Accept-Encoding")], Body.empty⟩

/-- A response that already carries a lowercase `vary: origin` value. -/
def respLowerOrigin : Response :=
  ⟨200, "", Headers.ofList [("Vary", "origin")], Body.empty⟩

/-- A response that carries a present but *empty* `Vary` value. -/
def respEmptyVary : Response :=
  ⟨200, "", Headers.ofList [("Vary", "")], Body.empty⟩

/-- Claim C5 (counterexample): a response arriving with an existing (but
empty) `Vary` value and a non-wildcard origin decision ends up with
`Vary: Origin` — the existing value is *overwritten*, not merged to
`, Origin` as the claim's "appends, merging with any existing Vary
value" requires: `const vary = headers.get('Vary'); if (vary)` is a JS
truthiness test, so the empty value takes the no-`Vary` branch. -/
theorem claim5_counterexample :
    respEmptyVary.headers.get "Vary" = some ""
      ∧ truthyStr (resolveAllowOrigin config reqAllowedOrigin) = some "https://example.com"
      ∧ (applyCors config reqAllowedOrigin respEmptyVary).headers.get "Vary" = some "Origin"
      ∧ ¬((applyCors config reqAllowedOrigin respEmptyVary).headers.get "Vary"
          = some ("" ++ ", Origin")) := by
  decide

/-- Claim C5 (amended): when `applyCors` resolves a non-wildcard allowed
origin it merges `Origin` into the `Vary` header — setting
`Vary: Origin` when no `Vary` exists *or the existing value is empty*
(the code's `if (vary)` truthiness treats an empty value like an absent
one and overwrites it), appending `, Origin` when a non-empty value
exists without a (case-insensitive) `Origin` token, and leaving the
value untouched when an `Origin` token is already present (so no
duplicate is ever produced); when the resolved origin is the wildcard,
`Vary` is left untouched. -/
theorem claim5_vary_merge (cfg : Config) (req : Request) (resp : Response) :
    (∀ o, truthyStr (resolveAllowOrigin cfg req) = some o → o ≠ "*" →
      ((resp.headers.get "Vary" = none →
          (applyCors cfg req resp).headers.get "Vary" = some "Origin")
        ∧ (resp.headers.get "Vary" = some "" →
          (applyCors cfg req resp).headers.get "Vary" = some "Origin")
        ∧ (∀ v, resp.headers.get "Vary" = some v → v ≠ "" → hasOriginWord v = false →
            (applyCors cfg req resp).headers.get "Vary" = some (v ++ ", Origin"))
        ∧ (∀ v, resp.headers.get "Vary" = some v → hasOriginWord v = true →
            (applyCors cfg req resp).headers.get "Vary" = some v)))
    ∧ (resolveAllowOrigin cfg req = some "*" →
        (applyCors cfg req resp).headers.get "Vary" = resp.headers.get "Vary") := by
  have hinfo : (applyCors cfg req resp).headers.get "Vary"
      = (corsOriginStage cfg (resolveAllowOrigin cfg req) resp.headers).get "Vary" := by
    show (corsInfoStage cfg _).get "Vary" = _
    exact corsInfoStage_get_ne cfg _ "Vary" (by decide) (by decide) (by decide)
  constructor
  · intro o ht ho
    have hw : (!(o == "*")) = true := by
      cases hbe : (o == "*") with
      | false => rfl
      | true => exact absurd (by simpa using hbe) ho
    have hchar := corsOriginStage_get_vary cfg (resolveAllowOrigin cfg req) resp.headers o ht hw
    refine ⟨?_, ?_, ?_, ?_⟩
    · intro hnone
      rw [hinfo, hchar, hnone]
      rfl
    · intro hempty
      rw [hinfo, hchar, hempty]
      decide
    · intro v hv hne hwrd
      rw [hinfo, hchar, hv, truthyStr_of_ne v hne]
      simp [hwrd]
    · intro v hv hwrd
      rw [hinfo, hchar, hv, truthyStr_of_ne v (hasOriginWord_ne_empty v hwrd)]
      simp [hwrd]
  · intro hstar
    have ht : truthyStr (resolveAllowOrigin cfg req) = some "*" := by
      rw [hstar]
      rfl
    rw [hinfo]
    exact corsOriginStage_get_vary_wild cfg _ resp.headers ht

/-- Claim C5 witness: under the repository's allowlist configuration, a
dynamic origin decision merges into an existing `Vary: Accept-Encoding`
as `Accept-Encoding, Origin`, and an existing lowercase `origin` token is
detected case-insensitively and left untouched. -/
theorem claim5_witness :
    (applyCors config reqAllowedOrigin respAcceptEncoding).headers.get "Vary"
        = some "Accept-Encoding, Origin"
      ∧ (applyCors config reqAllowedOrigin respLowerOrigin).headers.get "Vary"
        = some "origin" :=
  ⟨((claim5_vary_merge config reqAllowedOrigin respAcceptEncoding).1 "https://example.com"
      (by decide) (by decide)).2.2.1 "Accept-Encoding" (by decide) (by decide) (by decide),
   ((claim5_vary_merge config reqAllowedOrigin respLowerOrigin).1 "https://example.com"
      (by decide) (by decide)).2.2.2 "origin" (by decide) (by decide)⟩

/-- Claim C6: `applyCors` is idempotent — applying the CORS wrap twice
with the same request yields the same observable header set (every `get`
agrees), status, status text and body as applying it once. -/
theorem claim6_applyCors_idempotent (cfg : Config) (req : Request) (resp : Response) :
    (∀ name, (applyCors cfg req (applyCors cfg req resp)).headers.get name
        = (applyCors cfg req resp).headers.get name)
    ∧ (applyCors cfg req (applyCors cfg req resp)).status
        = (applyCors cfg req resp).status
    ∧ (applyCors cfg req (applyCors cfg req resp)).statusText
        = (applyCors cfg req resp).statusText
    ∧ (applyCors cfg req (applyCors cfg req resp)).body
        = (applyCors cfg req resp).body := by
  refine ⟨?_, rfl, rfl, rfl⟩
  intro name
  show (corsInfoStage cfg (corsOriginStage cfg (resolveAllowOrigin cfg req)
      (corsInfoStage cfg (corsOriginStage cfg (resolveAllowOrigin cfg req) resp.headers)))).get name
    = (corsInfoStage cfg (corsOriginStage cfg (resolveAllowOrigin cfg req) resp.headers)).get name
  have hsec1 : ∀ m, (corsOriginStage cfg (resolveAllowOrigin cfg req)
      (corsInfoStage cfg (corsOriginStage cfg (resolveAllowOrigin cfg req) resp.headers))).get m
      = (corsInfoStage cfg (corsOriginStage cfg (resolveAllowOrigin cfg req) resp.headers)).get m := by
    apply corsOriginStage_second
    · intro o ht
      rw [Headers.has,
        corsInfoStage_get_ne cfg _ "Access-Control-Allow-Origin" (by decide) (by decide) (by decide)]
      exact corsOriginStage_has_acao cfg _ resp.headers o ht
    · intro o ht hcd
      rw [corsInfoStage_get_ne cfg _ "Access-Control-Allow-Credentials"
        (by decide) (by decide) (by decide)]
      exact corsOriginStage_get_cred cfg _ resp.headers o ht hcd
    · intro o ht hw
      rw [corsInfoStage_get_ne cfg _ "Vary" (by decide) (by decide) (by decide)]
      exact corsOriginStage_vary_word cfg _ resp.headers o ht hw
  have hsec2 : ∀ m, (corsInfoStage cfg (corsOriginStage cfg (resolveAllowOrigin cfg req)
      (corsInfoStage cfg (corsOriginStage cfg (resolveAllowOrigin cfg req) resp.headers)))).get m
      = (corsOriginStage cfg (resolveAllowOrigin cfg req)
          (corsInfoStage cfg (corsOriginStage cfg (resolveAllowOrigin cfg req) resp.headers))).get m := by
    apply corsInfoStage_second
    · rw [Headers.has, hsec1 "Access-Control-Allow-Methods"]
      exact corsInfoStage_has_acam cfg _
    · rw [Headers.has, hsec1 "Access-Control-Allow-Headers"]
      exact corsInfoStage_has_acah cfg _
    · intro hne
      rw [hsec1 "Access-Control-Expose-Headers"]
      exact corsInfoStage_get_aceh cfg _ hne
  rw [hsec2 name, hsec1 name]

/-! ### Claim C2 -/

theorem applyCors_get_acao_of_no_origin (cfg : Config) (req : Request) (resp : Response)
    (h0 : req.headers.get "Origin" = none) :
    (applyCors cfg req resp).headers.get "Access-Control-Allow-Origin"
      = resp.headers.get "Access-Control-Allow-Origin" := by
  have ho : resolveAllowOrigin cfg req = none := by
    unfold resolveAllowOrigin
    rw [h0]
    rfl
  show (corsInfoStage cfg (corsOriginStage cfg _ _)).get _ = _
  rw [corsInfoStage_get_ne cfg _ "Access-Control-Allow-Origin" (by decide) (by decide) (by decide)]
  rw [corsOriginStage_of_none cfg _ _ (by rw [ho]; rfl)]

theorem getAllJson_get_acao (ff : Bool) (req : Request) :
    (getAllJson ff req).headers.get "Access-Control-Allow-Origin" = none := by
  unfold getAllJson
  repeat' split
  all_goals rfl

theorem handleRequest_get_acao (cfg : Config) (ff : Bool) (req : Request) :
    (handleRequest cfg ff req).headers.get "Access-Control-Allow-Origin" = none := by
  unfold handleRequest
  repeat' split
  all_goals first
  | rfl
  | exact getAllJson_get_acao ff req

/-- Claim C2: a request without an `Origin` header never yields an
`Access-Control-Allow-Origin` header from the worker's entry point,
whatever origin policy and whatever route is configured. -/
theorem claim2_no_origin_no_acao (cfg : Config) (ff : Bool) (req : Request)
    (h0 : req.headers.get "Origin" = none) :
    (fetch cfg ff req).headers.get "Access-Control-Allow-Origin" = none := by
  unfold fetch
  split_ifs with h1 h2
  · rw [applyCors_get_acao_of_no_origin cfg req _ h0]
    rfl
  · unfold handleOptions
    have hfalse : ¬(((req.headers.get "Origin").isSome
        && (req.headers.get "Access-Control-Request-Method").isSome
        && (req.headers.get "Access-Control-Request-Headers").isSome) = true) := by
      rw [h0]
      simp
    rw [if_neg hfalse]
    rfl
  · rw [applyCors_get_acao_of_no_origin cfg req _ h0]
    exact handleRequest_get_acao cfg ff req

/-- A GET request to `/health` without an `Origin` header. -/
def reqNoOrigin : Request :=
  ⟨"GET", "/health", Headers.ofList [], none⟩

/-- Claim C2 witness: the theorem applied to a concrete origin-less
request under the repository configuration. -/
theorem claim2_witness :
    (fetch config false reqNoOrigin).headers.get "Access-Control-Allow-Origin" = none :=
  claim2_no_origin_no_acao config false reqNoOrigin (by decide)

/-! ### Claim C7 -/

/-- Claim C7: an OPTIONS request that passes the global method gate is
answered by the preflight builder's result, unmodified, exactly when
`Origin`, `Access-Control-Request-Method` and
`Access-Control-Request-Headers` are all present; otherwise it is
answered by a bare 204 no-content response carrying an `Allow` header
with the full method allowlist and no `Access-Control-*` headers. -/
theorem claim7_options_dispatch (cfg : Config) (ff : Bool) (req : Request)
    (hm : req.method = "OPTIONS") (hallow : cfg.methods.contains "OPTIONS" = true) :
    (((req.headers.get "Origin").isSome = true
        ∧ (req.headers.get "Access-Control-Request-Method").isSome = true
        ∧ (req.headers.get "Access-Control-Request-Headers").isSome = true) →
      fetch cfg ff req = buildPreflightResponse cfg req)
    ∧ (¬((req.headers.get "Origin").isSome = true
        ∧ (req.headers.get "Access-Control-Request-Method").isSome = true
        ∧ (req.headers.get "Access-Control-Request-Headers").isSome = true) →
      fetch cfg ff req = noContentResponse [("Allow", joinComma cfg.methods)]
      ∧ (fetch cfg ff req).status = 204
      ∧ (fetch cfg ff req).body = Body.empty
      ∧ (fetch cfg ff req).headers.get "Allow" = some (joinComma cfg.methods)
      ∧ (fetch cfg ff req).headers.get "Access-Control-Allow-Origin" = none
      ∧ (fetch cfg ff req).headers.get "Access-Control-Allow-Methods" = none
      ∧ (fetch cfg ff req).headers.get "Access-Control-Allow-Headers" = none
      ∧ (fetch cfg ff req).headers.get "Access-Control-Allow-Credentials" = none
      ∧ (fetch cfg ff req).headers.get "Access-Control-Expose-Headers" = none
      ∧ (fetch cfg ff req).headers.get "Access-Control-Max-Age" = none) := by
  have hnot : ¬((!(cfg.methods.contains req.method)) = true) := by
    rw [hm, hallow]
    simp
  have hopt : (req.method == "OPTIONS") = true := by
    rw [hm]
    rfl
  have hfetch : fetch cfg ff req = handleOptions cfg req := by
    unfold fetch
    rw [if_neg hnot, if_pos hopt]
  constructor
  · rintro ⟨ho, ha, hb⟩
    rw [hfetch]
    unfold handleOptions
    have hcond : ((req.headers.get "Origin").isSome
        && (req.headers.get "Access-Control-Request-Method").isSome
        && (req.headers.get "Access-Control-Request-Headers").isSome) = true := by
      rw [ho, ha, hb]
      rfl
    rw [if_pos hcond]
  · intro hn
    have hcond : ¬(((req.headers.get "Origin").isSome
        && (req.headers.get "Access-Control-Request-Method").isSome
        && (req.headers.get "Access-Control-Request-Headers").isSome) = true) := by
      intro hcontra
      simp only [Bool.and_eq_true] at hcontra
      exact hn ⟨hcontra.1.1, hcontra.1.2, hcontra.2⟩
    have hbare : fetch cfg ff req = noContentResponse [("Allow", joinComma cfg.methods)] := by
      rw [hfetch]
      unfold handleOptions
      rw [if_neg hcond]
    refine ⟨hbare, ?_, ?_, ?_, ?_, ?_, ?_, ?_, ?_, ?_⟩ <;> rw [hbare] <;> rfl

/-- A full preflight request (all three CORS request headers present). -/
def reqPreflight : Request :=
  ⟨"OPTIONS", "/",
    Headers.ofList
      [ ("Origin", "https://example.com")
      , ("Access-Control-Request-Method", "POST")
      , ("Access-Control-Request-Headers", "content-type") ], none⟩

/-- A bare OPTIONS request (no CORS request headers). -/
def reqBareOptions : Request :=
  ⟨"OPTIONS", "/", Headers.ofList [], none⟩

/-- Claim C7 witness: the theorem applied to one full preflight (the
entry point returns the preflight builder's output) and one bare OPTIONS
request (a 204 carrying the `Allow` list). -/
theorem claim7_witness :
    fetch config false reqPreflight = buildPreflightResponse config reqPreflight
      ∧ (fetch config false reqBareOptions).headers.get "Allow"
        = some "GET, HEAD, POST, OPTIONS, PATCH" :=
  ⟨(claim7_options_dispatch config false reqPreflight rfl (by decide)).1
      ⟨by decide, by decide, by decide⟩,
   ((claim7_options_dispatch config false reqBareOptions rfl (by decide)).2
      (by intro h; exact absurd h.1 (by decide))).2.2.2.1⟩

/-! ### Claim C3 -/

/-- A preflight whose requested method `DELETE` is not in the allowlist. -/
def reqDeletePreflight : Request :=
  ⟨"OPTIONS", "/",
    Headers.ofList
      [ ("Origin", "https://example.com")
      , ("Access-Control-Request-Method", "DELETE")
      , ("Access-Control-Request-Headers", "content-type") ], none⟩

/-- A preflight carrying a present but empty
`Access-Control-Request-Method` header. -/
def reqEmptyAcrm : Request :=
  ⟨"OPTIONS", "/",
    Headers.ofList
      [ ("Origin", "https://example.com")
      , ("Access-Control-Request-Method", "")
      , ("Access-Control-Request-Headers", "content-type") ], none⟩

/-- Claim C3 (counterexample): an empty `Access-Control-Request-Method`
header is present, and its upper-cased value is not in the method
allowlist, yet the preflight builder answers 204 rather than the claimed
405 — the code's `if (acrm && …)` truthiness test skips the check for an
empty header value. -/
theorem claim3_counterexample :
    reqEmptyAcrm.headers.get "Access-Control-Request-Method" = some ""
      ∧ config.methods.contains (upperStr "") = false
      ∧ (buildPreflightResponse config reqEmptyAcrm).status = 204 := by
  decide

/-- Claim C3 (amended): when the `Access-Control-Request-Method` header is
present *and non-empty* and its upper-cased value is not a member of the
method allowlist, the preflight builder returns exactly the plain 405
JSON `METHOD_NOT_ALLOWED` error, which carries neither an allow-origin
header nor a `Vary` header. -/
theorem claim3_preflight_method_rejected (cfg : Config) (req : Request) (m : String)
    (hm : req.headers.get "Access-Control-Request-Method" = some m) (hne : m ≠ "")
    (hnotin : cfg.methods.contains (upperStr m) = false) :
    buildPreflightResponse cfg req
      = errorResponse 405 ErrorCodes.METHOD_NOT_ALLOWED ("Method " ++ m ++ " not allowed")
    ∧ (buildPreflightResponse cfg req).status = 405
    ∧ (buildPreflightResponse cfg req).body
      = Body.jsonError ErrorCodes.METHOD_NOT_ALLOWED ("Method " ++ m ++ " not allowed")
    ∧ (buildPreflightResponse cfg req).headers.get "Access-Control-Allow-Origin" = none
    ∧ (buildPreflightResponse cfg req).headers.get "Vary" = none := by
  have ht : truthyStr (req.headers.get "Access-Control-Request-Method") = some m := by
    rw [hm]
    simp [truthyStr, hne]
  have hcond : (!(cfg.methods.contains (upperStr m))) = true := by
    rw [hnotin]
    rfl
  have hmain : buildPreflightResponse cfg req
      = errorResponse 405 ErrorCodes.METHOD_NOT_ALLOWED ("Method " ++ m ++ " not allowed") := by
    unfold buildPreflightResponse
    simp only [ht]
    rw [if_pos hcond]
  refine ⟨hmain, ?_, ?_, ?_, ?_⟩ <;> rw [hmain] <;> rfl

/-- Claim C3 witness: the amended theorem applied to a concrete
`DELETE` preflight against the repository's allowlist. -/
theorem claim3_witness :
    buildPreflightResponse config reqDeletePreflight
        = errorResponse 405 ErrorCodes.METHOD_NOT_ALLOWED "Method DELETE not allowed"
      ∧ (buildPreflightResponse config reqDeletePreflight).headers.get "Vary" = none :=
  ⟨(claim3_preflight_method_rejected config reqDeletePreflight "DELETE"
      (by decide) (by decide) (by decide)).1,
   (claim3_preflight_method_rejected config reqDeletePreflight "DELETE"
      (by decide) (by decide) (by decide)).2.2.2.2⟩

/-! ### Claim C4 -/

theorem preflightFinish_status (cfg : Config) (origin : Option String) (h : Headers) :
    (preflightFinish cfg origin h).status = 204 := rfl

theorem preflightFinish_get_ne (cfg : Config) (origin : Option String) (h : Headers)
    (name : String)
    (c1 : lowerStr name ≠ lowerStr "Access-Control-Max-Age")
    (c2 : lowerStr name ≠ lowerStr "Access-Control-Allow-Credentials")
    (c3 : lowerStr name ≠ lowerStr "Access-Control-Expose-Headers")
    (c4 : lowerStr name ≠ lowerStr "Vary") :
    (preflightFinish cfg origin h).headers.get name = h.get name := by
  cases origin with
  | none =>
    unfold preflightFinish
    dsimp only
    split_ifs <;> simp [Headers.get_set, c1, c2, c3, c4]
  | some o =>
    unfold preflightFinish
    dsimp only
    split_ifs <;> simp [Headers.get_set, c1, c2, c3, c4]

/-- A preflight carrying a present but empty
`Access-Control-Request-Headers` header. -/
def reqEmptyAcrh : Request :=
  ⟨"OPTIONS", "/",
    Headers.ofList
      [ ("Origin", "https://example.com")
      , ("Access-Control-Request-Method", "POST")
      , ("Access-Control-Request-Headers", "") ], none⟩

/-- Claim C4 (counterexample): an empty `Access-Control-Request-Headers`
header is present — its parsed request list is empty, whose join is the
empty string — yet the 204 advertises the full static allowlist
(`Content-Type`) instead of the requested list as sent: the code's
`if (reqHeaders)` truthiness test routes an empty value to the
absent-header fallback. -/
theorem claim4_counterexample :
    reqEmptyAcrh.headers.get "Access-Control-Request-Headers" = some ""
      ∧ joinComma (requestedHeadersOf "") = ""
      ∧ (buildPreflightResponse config reqEmptyAcrh).headers.get "Access-Control-Allow-Headers"
        = some "Content-Type"
      ∧ ¬((buildPreflightResponse config reqEmptyAcrh).headers.get "Access-Control-Allow-Headers"
        = some (joinComma (requestedHeadersOf ""))) := by
  decide

/-- Claim C4 (amended): when `Access-Control-Request-Headers` is present
*and non-empty*, it is split on commas, trimmed, empties dropped; each
entry is checked case-insensitively against the static header allowlist;
the first non-member yields an immediate 400 `CORS_HEADER_NOT_ALLOWED`
JSON error naming it; if all are allowed the 204's allow-headers value is
exactly the requested list as sent (joined), not the full allowlist; when
the header is absent *or empty*, the full static allowlist is advertised. -/
theorem claim4_preflight_headers (cfg : Config) (req : Request)
    (hok : preflightMethodOk cfg req = true) :
    (∀ rh, req.headers.get "Access-Control-Request-Headers" = some rh → rh ≠ "" →
      ((∀ bad, (requestedHeadersOf rh).find?
            (fun hn => !((cfg.allowHeaders.map lowerStr).contains (lowerStr hn))) = some bad →
          buildPreflightResponse cfg req
            = errorResponse 400 ErrorCodes.CORS_HEADER_NOT_ALLOWED
                ("CORS header not allowed: " ++ bad))
        ∧ ((requestedHeadersOf rh).find?
            (fun hn => !((cfg.allowHeaders.map lowerStr).contains (lowerStr hn))) = none →
          (buildPreflightResponse cfg req).status = 204
          ∧ (buildPreflightResponse cfg req).headers.get "Access-Control-Allow-Headers"
            = some (joinComma (requestedHeadersOf rh)))))
    ∧ ((req.headers.get "Access-Control-Request-Headers" = none
        ∨ req.headers.get "Access-Control-Request-Headers" = some "") →
      (buildPreflightResponse cfg req).status = 204
      ∧ (buildPreflightResponse cfg req).headers.get "Access-Control-Allow-Headers"
        = some (joinComma cfg.allowHeaders)) := by
  have hred : buildPreflightResponse cfg req
      = preflightRest cfg (truthyStr (resolveAllowOrigin cfg req)) req
          (match truthyStr (resolveAllowOrigin cfg req) with
           | some o => Headers.set ⟨[]⟩ "Access-Control-Allow-Origin" o
           | none => (⟨[]⟩ : Headers)) := by
    unfold buildPreflightResponse
    unfold preflightMethodOk at hok
    cases ht : truthyStr (req.headers.get "Access-Control-Request-Method") with
    | none => simp only [ht]
    | some m =>
      rw [ht] at hok
      dsimp only at hok
      simp only [ht]
      have hcond : ¬((!(cfg.methods.contains (upperStr m))) = true) := by
        rw [hok]
        simp
      rw [if_neg hcond]
  constructor
  · intro rh hrh hne
    have ht2 : truthyStr (req.headers.get "Access-Control-Request-Headers") = some rh := by
      rw [hrh]
      simp [truthyStr, hne]
    constructor
    · intro bad hbad
      rw [hred]
      unfold preflightRest
      simp only [ht2, hbad]
    · intro hnone
      have hform : buildPreflightResponse cfg req
          = preflightFinish cfg (truthyStr (resolveAllowOrigin cfg req))
              (((match truthyStr (resolveAllowOrigin cfg req) with
                 | some o => Headers.set ⟨[]⟩ "Access-Control-Allow-Origin" o
                 | none => (⟨[]⟩ : Headers)).set
                    "Access-Control-Allow-Methods" (joinComma cfg.methods)).set
                "Access-Control-Allow-Headers" (joinComma (requestedHeadersOf rh))) := by
        rw [hred]
        unfold preflightRest
        simp only [ht2, hnone]
      rw [hform]
      refine ⟨preflightFinish_status _ _ _, ?_⟩
      rw [preflightFinish_get_ne _ _ _ _ (by decide) (by decide) (by decide) (by decide)]
      exact Headers.get_set_self _ _ _
  · intro habs
    have ht2 : truthyStr (req.headers.get "Access-Control-Request-Headers") = none := by
      rcases habs with h | h <;> rw [h] <;> simp [truthyStr]
    have hform : buildPreflightResponse cfg req
        = preflightFinish cfg (truthyStr (resolveAllowOrigin cfg req))
            (((match truthyStr (resolveAllowOrigin cfg req) with
               | some o => Headers.set ⟨[]⟩ "Access-Control-Allow-Origin" o
               | none => (⟨[]⟩ : Headers)).set
                  "Access-Control-Allow-Methods" (joinComma cfg.methods)).set
              "Access-Control-Allow-Headers" (joinComma cfg.allowHeaders)) := by
      rw [hred]
      unfold preflightRest
      simp only [ht2]
    rw [hform]
    refine ⟨preflightFinish_status _ _ _, ?_⟩
    rw [preflightFinish_get_ne _ _ _ _ (by decide) (by decide) (by decide) (by decide)]
    exact Headers.get_set_self _ _ _

/-- A preflight requesting the disallowed header `X-Foo`. -/
def reqXFooPreflight : Request :=
  ⟨"OPTIONS", "/",
    Headers.ofList
      [ ("Origin", "https://example.com")
      , ("Access-Control-Request-Method", "POST")
      , ("Access-Control-Request-Headers", "Content-Type, X-Foo") ], none⟩

/-- Claim C4 witness: the amended theorem applied to a lowercase
`content-type` request (case-insensitive match, echoed back as sent) and
to a `Content-Type, X-Foo` request (400 naming `X-Foo`). -/
theorem claim4_witness :
    (buildPreflightResponse config reqPreflight).headers.get "Access-Control-Allow-Headers"
        = some "content-type"
      ∧ buildPreflightResponse config reqXFooPreflight
        = errorResponse 400 ErrorCodes.CORS_HEADER_NOT_ALLOWED
            "CORS header not allowed: X-Foo" :=
  ⟨(((claim4_preflight_headers config reqPreflight (by decide)).1 "content-type"
      (by decide) (by decide)).2 (by decide)).2,
   ((claim4_preflight_headers config reqXFooPreflight (by decide)).1 "Content-Type, X-Foo"
      (by decide) (by decide)).1 "X-Foo" (by decide)⟩

/-! ### Claim C8 -/

/-- Claim C8: for `/all.json`, a GET or HEAD request without platform
metadata gets the 500 `ENV_PLATFORM_METADATA_MISSING` JSON error (the
metadata check precedes the HEAD early-exit, so HEAD is covered); any
other method gets the 405 `METHOD_NOT_ALLOWED` JSON error; an unexpected
failure while formatting (the `formatFails` oracle modelling the route's
`try/catch`) yields the 500 `INTERNAL_SERVER_ERROR` JSON error. -/
theorem claim8_all_json_errors (ff : Bool) (req : Request) :
    ((req.method = "GET" ∨ req.method = "HEAD") → req.cf = none →
      getAllJson ff req
        = errorResponse 500 ErrorCodes.ENV_PLATFORM_METADATA_MISSING
            "Platform metadata unavailable")
    ∧ (req.method ≠ "GET" → req.method ≠ "HEAD" →
      getAllJson ff req
        = errorResponse 405 ErrorCodes.METHOD_NOT_ALLOWED "Method not allowed")
    ∧ (∀ c, req.method = "GET" → req.cf = some c → ff = true →
      getAllJson ff req
        = errorResponse 500 ErrorCodes.INTERNAL_SERVER_ERROR "Internal Server Error") := by
  refine ⟨?_, ?_, ?_⟩
  · intro hm hcf
    unfold getAllJson
    have hcond : ¬((!(req.method == "GET") && !(req.method == "HEAD")) = true) := by
      rcases hm with h | h <;> rw [h] <;> decide
    rw [if_neg hcond]
    simp only [hcf]
  · intro h1 h2
    unfold getAllJson
    have b1 : (req.method == "GET") = false := by
      rw [beq_eq_false_iff_ne]
      exact h1
    have b2 : (req.method == "HEAD") = false := by
      rw [beq_eq_false_iff_ne]
      exact h2
    have hcond : (!(req.method == "GET") && !(req.method == "HEAD")) = true := by
      rw [b1, b2]
      rfl
    rw [if_pos hcond]
  · intro c hm hcf hff
    unfold getAllJson
    have hcond : ¬((!(req.method == "GET") && !(req.method == "HEAD")) = true) := by
      rw [hm]
      decide
    rw [if_neg hcond]
    simp only [hcf]
    have hH : ¬((req.method == "HEAD") = true) := by
      rw [hm]
      decide
    rw [if_neg hH, hff, if_pos rfl]

/-- A HEAD request to `/all.json` with no platform metadata attached. -/
def reqHeadNoCf : Request :=
  ⟨"HEAD", "/all.json", Headers.ofList [], none⟩

/-- A POST request to `/all.json`. -/
def reqPostAllJson : Request :=
  ⟨"POST", "/all.json", Headers.ofList [], none⟩

/-- A sample platform-metadata object. -/
def cfSample : CfInfo :=
  ⟨some 13335, some "Cloudflare", some "US", none, none, none, none, none, some "gzip"⟩

/-- A GET request to `/all.json` with metadata and a User-Agent. -/
def reqGetAllJson : Request :=
  ⟨"GET", "/all.json",
    Headers.ofList [("CF-Connecting-IP", "1.2.3.4"), ("User-Agent", "curl/8.0")],
    some cfSample⟩

/-- Claim C8 witness: the theorem applied to a metadata-less HEAD (500
missing-metadata), a POST (405), and a GET for which formatting fails
(500 internal). -/
theorem claim8_witness :
    getAllJson false reqHeadNoCf
        = errorResponse 500 ErrorCodes.ENV_PLATFORM_METADATA_MISSING
            "Platform metadata unavailable"
      ∧ getAllJson false reqPostAllJson
        = errorResponse 405 ErrorCodes.METHOD_NOT_ALLOWED "Method not allowed"
      ∧ getAllJson true reqGetAllJson
        = errorResponse 500 ErrorCodes.INTERNAL_SERVER_ERROR "Internal Server Error" :=
  ⟨(claim8_all_json_errors false reqHeadNoCf).1 (Or.inr rfl) rfl,
   (claim8_all_json_errors false reqPostAllJson).2.1 (by decide) (by decide),
   (claim8_all_json_errors true reqGetAllJson).2.2 cfSample rfl rfl rfl⟩

/-! ### Claim C9 -/

/-- Claim C9: the IP sanitizer first trims surrounding whitespace and
strips CR/LF, then returns the cleaned string when it is IPv4-shaped
(four dot-separated groups of one to three digits, with no octet-range
check) or when it contains a colon and passes the hex-and-colons IPv6
filter; for every other input — the empty string and garbage included —
it returns the sentinel `"Unknown"`.  The closed conjuncts pin the
spec's examples. -/
theorem claim9_ip_sanitizer :
    (∀ raw : String,
      ((ipv4Test (cleanedOf raw) = true
          ∨ ((cleanedOf raw).data.contains ':' = true ∧ ipv6Test (cleanedOf raw) = true)) →
        validateAndCleanIP raw = cleanedOf raw)
      ∧ (ipv4Test (cleanedOf raw) = false →
          ((cleanedOf raw).data.contains ':' = false ∨ ipv6Test (cleanedOf raw) = false) →
        validateAndCleanIP raw = "Unknown"))
    ∧ validateAndCleanIP "999.999.999.999" = "999.999.999.999"
    ∧ validateAndCleanIP "::1\r\n" = "::1"
    ∧ validateAndCleanIP "" = "Unknown"
    ∧ validateAndCleanIP "this-is-garbage" = "Unknown" := by
  refine ⟨?_, by decide, by decide, by decide, by decide⟩
  intro raw
  constructor
  · intro hOr
    unfold validateAndCleanIP
    dsimp only
    have hcond : (ipv4Test (cleanedOf raw)
        || ((cleanedOf raw).data.contains ':' && ipv6Test (cleanedOf raw))) = true := by
      rcases hOr with h | ⟨hc, h6⟩
      · rw [h]
        rfl
      · rw [hc, h6]
        simp
    rw [if_pos hcond]
  · intro h4 hb
    unfold validateAndCleanIP
    dsimp only
    have hcond : (ipv4Test (cleanedOf raw)
        || ((cleanedOf raw).data.contains ':' && ipv6Test (cleanedOf raw))) = false := by
      rw [h4]
      rcases hb with h | h <;> rw [h] <;> simp
    have hn : ¬((ipv4Test (cleanedOf raw)
        || ((cleanedOf raw).data.contains ':' && ipv6Test (cleanedOf raw))) = true) := by
      rw [hcond]
      exact Bool.false_ne_true
    rw [if_neg hn]

/-- Claim C9 witness: the universal characterization applied to a plain
IPv4 input and to a colon-free hex string (rejected). -/
theorem claim9_witness :
    validateAndCleanIP "1.2.3.4" = "1.2.3.4"
      ∧ validateAndCleanIP "deadbeef" = "Unknown" :=
  ⟨(claim9_ip_sanitizer.1 "1.2.3.4").1 (Or.inl (by decide)),
   (claim9_ip_sanitizer.1 "deadbeef").2 (by decide) (Or.inl (by decide))⟩

/-! ### Claim C10 -/

/-- A GET request to `/all.json` carrying a present but empty
`User-Agent` header. -/
def reqEmptyUA : Request :=
  ⟨"GET", "/all.json",
    Headers.ofList [("CF-Connecting-IP", "1.2.3.4"), ("User-Agent", "")],
    some cfSample⟩

/-- Claim C10 (counterexample): an empty `User-Agent` header is present
and has length at most 512, yet the `user_agent` field is `"N/A"` rather
than the header value — `request.headers.get('User-Agent') || 'N/A'`
treats an empty header like an absent one. -/
theorem claim10_counterexample :
    reqEmptyUA.headers.get "User-Agent" = some ""
      ∧ ("" : String).length ≤ MAX_UA_LEN
      ∧ bodyUserAgent (handleRequest config false reqEmptyUA).body = some "N/A" := by
  decide

theorem getAllJson_user_agent (req : Request) (c : CfInfo)
    (hm : req.method = "GET") (hcf : req.cf = some c) :
    bodyUserAgent (getAllJson false req).body
      = some (if (orNA (req.headers.get "User-Agent")).length > MAX_UA_LEN then
                takeStr (orNA (req.headers.get "User-Agent")) MAX_UA_LEN ++ "…"
              else orNA (req.headers.get "User-Agent")) := by
  unfold getAllJson
  have h1 : ¬((!(req.method == "GET") && !(req.method == "HEAD")) = true) := by
    rw [hm]
    decide
  rw [if_neg h1]
  simp only [hcf]
  have h2 : ¬((req.method == "HEAD") = true) := by
    rw [hm]
    decide
  rw [if_neg h2]
  rfl

/-- Claim C10 (amended): for a GET to `/all.json` with metadata present,
the `user_agent` field equals the `User-Agent` header when it is
*non-empty* and at most 512 characters, equals its first 512 characters
followed by `…` when longer, and equals `"N/A"` when the header is absent
*or empty* (JS `|| 'N/A'` on a falsy value). -/
theorem claim10_user_agent (req : Request) (c : CfInfo)
    (hm : req.method = "GET") (hp : req.path = "/all.json") (hcf : req.cf = some c) :
    ((req.headers.get "User-Agent" = none ∨ req.headers.get "User-Agent" = some "") →
      bodyUserAgent (handleRequest config false req).body = some "N/A")
    ∧ (∀ ua, req.headers.get "User-Agent" = some ua → ua ≠ "" → ua.length ≤ MAX_UA_LEN →
        bodyUserAgent (handleRequest config false req).body = some ua)
    ∧ (∀ ua, req.headers.get "User-Agent" = some ua → ua.length > MAX_UA_LEN →
        bodyUserAgent (handleRequest config false req).body
          = some (takeStr ua MAX_UA_LEN ++ "…")) := by
  have hga : handleRequest config false req = getAllJson false req := by
    unfold handleRequest
    have hc : ¬((!(config.methods.contains req.method)) = true) := by
      rw [hm]
      decide
    rw [if_neg hc]
    have p1 : ¬((req.path == "/health") = true) := by
      rw [hp]
      decide
    have p2 : ¬((req.path == "/") = true) := by
      rw [hp]
      decide
    have p3 : (req.path == "/all.json") = true := by
      rw [hp]
      rfl
    rw [if_neg p1, if_neg p2, if_pos p3]
  have huag := getAllJson_user_agent req c hm hcf
  refine ⟨?_, ?_, ?_⟩
  · intro hua
    rw [hga, huag]
    rcases hua with h | h <;> rw [h] <;> decide
  · intro ua hua hne hlen
    rw [hga, huag, hua]
    have ho : orNA (some ua) = ua := by
      simp [orNA, hne]
    rw [ho]
    have hgt : ¬(ua.length > MAX_UA_LEN) := by
      omega
    rw [if_neg hgt]
  · intro ua hua hlen
    rw [hga, huag, hua]
    have hne : ua ≠ "" := by
      intro h
      rw [h] at hlen
      exact absurd hlen (by decide)
    have ho : orNA (some ua) = ua := by
      simp [orNA, hne]
    rw [ho, if_pos hlen]

/-- A 600-character User-Agent value (banner of 600 `a`s). -/
def longUA : String :=
  String.mk (List.replicate 600 'a')

/-- A GET request to `/all.json` with a 600-character User-Agent. -/
def reqLongUA : Request :=
  ⟨"GET", "/all.json", Headers.ofList [("User-Agent", longUA)], some cfSample⟩

set_option maxRecDepth 4000 in
/-- Claim C10 witness: the amended theorem applied to a short User-Agent
(echoed) and to a 600-character one (truncated to 512 plus `…`). -/
theorem claim10_witness :
    bodyUserAgent (handleRequest config false reqGetAllJson).body = some "curl/8.0"
      ∧ bodyUserAgent (handleRequest config false reqLongUA).body
        = some (takeStr longUA MAX_UA_LEN ++ "…") :=
  ⟨(claim10_user_agent reqGetAllJson cfSample rfl rfl rfl).2.1 "curl/8.0"
      (by decide) (by decide) (by decide),
   (claim10_user_agent reqLongUA cfSample rfl rfl rfl).2.2 longUA
      (by decide) (by decide)⟩

end MyIp
